import Mathlib

/-!
Shallow embedding of the texture-atlas core of `gfx_voxel` (`src/texture.rs`):
`ColorMap::get` and `AtlasBuilder::{new, load, min_alpha, get_size}`.

Modelling conventions:
* `u32` quantities become `Nat` (the claims under scrutiny never exercise
  `u32` wrap-around: all subtractions in the source are guarded so they never
  underflow, and no claim depends on overflow behaviour).
* `image::RgbaImage` becomes `Img`: explicit width/height plus a total pixel
  function.  `ImageBuffer::new` zero-initializes, hence `Img.new`.
* `HashMap` becomes an association list queried with `List.lookup`; the source
  only ever inserts a key it has just found absent, so first-match lookup
  agrees with `HashMap` semantics.
* File-system access plus `load_rgba8` (decoding `base_path/name.png`) is
  absorbed into a codec parameter `decode : String → Option Img`; `none`
  models a missing or undecodable file.
* Rust panics (`unwrap`, `assert!`, remainder by zero) are modelled by the
  explicit outcome `LoadOutcome.panic`; the source's `load` has return type
  `(u32, u32)` and no error channel.
* `ColorMap::get` works on `f32`; it is modelled over `ℚ` with the Rust
  `as u8` cast rendered as `Int.floor` (truncation: all cast operands lie in
  `[0, 255]`, where the cast truncates toward zero).  At dyadic inputs such as
  `1/2` every intermediate `f32` value is exactly representable, so the
  rational model agrees with `f32` arithmetic there bit for bit.
-/

/-- One RGBA pixel; channel values are bytes, modelled as `Nat`. -/
structure Rgba where
  r : Nat
  g : Nat
  b : Nat
  a : Nat
deriving DecidableEq

/-- The all-zero (transparent black) pixel, the `ImageBuffer::new` fill value. -/
def rgbaZero : Rgba := ⟨0, 0, 0, 0⟩

/-- An RGBA raster (`image::RgbaImage`): dimensions plus a total pixel map.
Pixel access is total; the source's in-bounds accesses are the only ones any
claim depends on. -/
structure Img where
  width : Nat
  height : Nat
  pix : Nat → Nat → Rgba

/-- `ImageBuffer::new(w, h)`: a `w × h` raster of zero pixels. -/
def Img.new (w h : Nat) : Img := ⟨w, h, fun _ _ => rgbaZero⟩

/-- `AtlasBuilder` (texture.rs lines 90-105).  The `path` field is absorbed
into the codec parameter of `load`, and `wgpu` upload (`complete`) is out of
scope, so neither appears here. -/
structure AtlasBuilder where
  image : Img
  unit_width : Nat
  unit_height : Nat
  completed_tiles_size : Nat
  position : Nat
  tile_positions : List (String × (Nat × Nat))
  min_alpha_cache : List ((Nat × Nat × Nat × Nat) × Nat)

/-- `AtlasBuilder::new` (texture.rs lines 109-122): a `4·unit_width ×
4·unit_height` zero raster, zero cursor, empty caches. -/
def AtlasBuilder.new (unit_width unit_height : Nat) : AtlasBuilder :=
  { image := Img.new (unit_width * 4) (unit_height * 4)
    unit_width := unit_width
    unit_height := unit_height
    completed_tiles_size := 0
    position := 0
    tile_positions := []
    min_alpha_cache := [] }

/-- The raster-doubling step of `load` (texture.rs lines 150-155): a fresh
`2w × 2h` zero raster with every old pixel copied to the same coordinate. -/
def growImage (img : Img) : Img :=
  { width := img.width * 2
    height := img.height * 2
    pix := fun ix iy => if ix < img.width ∧ iy < img.height then img.pix ix iy else rgbaZero }

/-- Pixel-copy of a `w × h` block of `src` into `dest` at origin `(x, y)`
(texture.rs lines 177-184). -/
def blit (dest src : Img) (x y w h : Nat) : Img :=
  { dest with pix := fun px py =>
      if x ≤ px ∧ px < x + w ∧ y ≤ py ∧ py < y + h
      then src.pix (px - x) (py - y)
      else dest.pix px py }

/-- Grid coordinate of the next tile (texture.rs lines 165-169). -/
def gridCoord (size position : Nat) : Nat × Nat :=
  if position < size then (position, size) else (size, position - size)

/-- Cursor advance (texture.rs lines 171-175); returns the new
`(completed_tiles_size, position)`. -/
def advanceCursor (size position : Nat) : Nat × Nat :=
  if position + 1 ≥ size * 2 + 1 then (size + 1, 0) else (size, position + 1)

/-- The distinct Rust panics that `load` can hit. -/
inductive PanicCause where
  | unwrapDecode
  | assertWidth
  | remainderZero
  | assertHeightMod
deriving DecidableEq

/-- Result of one `load` call: the returned pixel origin together with the
mutated builder, or a panic. -/
inductive LoadOutcome where
  | ok (pos : Nat × Nat) (st : AtlasBuilder)
  | panic (cause : PanicCause)

/-- The cache-missing happy path of `load` (texture.rs lines 144-196), after
the decode and the two assertions have succeeded: grow the raster if needed,
compute the placement, advance the cursor, blit, record the origin. -/
def loadPlace (st : AtlasBuilder) (name : String) (img : Img) : (Nat × Nat) × AtlasBuilder :=
  let uw := st.unit_width
  let uh := st.unit_height
  let w := st.image.width
  let h := st.image.height
  let size := st.completed_tiles_size
  let image1 :=
    if st.position = 0 ∧ (uw * size ≥ w ∨ uh * size ≥ h) then growImage st.image
    else st.image
  let xy := gridCoord size st.position
  let sp := advanceCursor size st.position
  let origin := (xy.1 * uw, xy.2 * uh)
  let image2 := blit image1 img origin.1 origin.2 uw uh
  (origin,
    { st with
        image := image2
        completed_tiles_size := sp.1
        position := sp.2
        tile_positions := (name, origin) :: st.tile_positions })

/-- `AtlasBuilder::load` (texture.rs lines 128-197).  `decode` models
`load_rgba8(base_path/name.png)`.  The source order is kept: cache lookup,
decode (`unwrap`), width assertion, `ih % unit_height` (which is a Rust panic
when `unit_height = 0`), height-multiple assertion, then the happy path. -/
def AtlasBuilder.load (st : AtlasBuilder) (decode : String → Option Img)
    (name : String) : LoadOutcome :=
  match List.lookup name st.tile_positions with
  | some pos => .ok pos st
  | none =>
    match decode name with
    | none => .panic .unwrapDecode
    | some img =>
      if img.width = st.unit_width then
        if st.unit_height = 0 then .panic .remainderZero
        else if img.height % st.unit_height = 0 then
          .ok (loadPlace st name img).1 (loadPlace st name img).2
        else .panic .assertHeightMod
      else .panic .assertWidth

/-- Alpha channels of the pixels of the `w × h` sub-rectangle of `img` at
`(x, y)`, in the row-major order of `SubImage::pixels`. -/
def rectAlphas (img : Img) (x y w h : Nat) : List Nat :=
  (List.range h).flatMap (fun j => (List.range w).map (fun i => (img.pix (x + i) (y + j)).a))

/-- The scan of `min_alpha` (texture.rs line 210): minimum alpha over the
rectangle, `0` when it is empty (`min().unwrap_or(0)`). -/
def Img.minAlphaRect (img : Img) (x y w h : Nat) : Nat :=
  (rectAlphas img x y w h).min?.getD 0

/-- `AtlasBuilder::min_alpha` (texture.rs lines 200-213): memoized minimum
alpha of a rectangle; returns the value plus the (possibly) updated builder. -/
def AtlasBuilder.min_alpha (st : AtlasBuilder) (rect : Nat × Nat × Nat × Nat) :
    Nat × AtlasBuilder :=
  match rect with
  | (x, y, w, h) =>
    match List.lookup (x, y, w, h) st.min_alpha_cache with
    | some alpha => (alpha, st)
    | none =>
      let m := st.image.minAlphaRect x y w h
      (m, { st with min_alpha_cache := ((x, y, w, h), m) :: st.min_alpha_cache })

/-- `AtlasBuilder::get_size` (texture.rs lines 217-219). -/
def AtlasBuilder.get_size (st : AtlasBuilder) : Nat × Nat :=
  (st.image.width, st.image.height)

/-- `ColorMap` (texture.rs line 56): a raster, 256×256 by construction. -/
structure ColorMap where
  img : Img

/-- `ColorMap::get` (texture.rs lines 72-86) over exact rationals: clamp both
inputs to `[0, 1]`, rescale `y` by `x`, convert with the Rust `as u8` cast
(truncation toward zero, here `Int.floor` since the operands are in
`[0, 255]`), and read the RGB channels of that pixel. -/
def ColorMap.get (m : ColorMap) (x y : ℚ) : Nat × Nat × Nat :=
  let x1 := min (max x 0) 1
  let y1 := min (max y 0) 1
  let y2 := x1 * y1
  let px := (Int.floor ((1 - x1) * 255)).toNat
  let py := (Int.floor ((1 - y2) * 255)).toNat
  let c := m.img.pix px py
  (c.r, c.g, c.b)

/-- Clamp to `[0, 1]`, as the spec words it. -/
def specClamp01 (x : ℚ) : ℚ := min (max x 0) 1

/-- `ColorMap::get` as the spec sentence states it, with `round` for the
pixel-coordinate conversion: "both inputs are clamped to [0.0, 1.0]; `y` is
rescaled by `y' = x * y`; `px = round((1 - x) * 255)`,
`py = round((1 - y') * 255)`; returns the RGB channels of that pixel,
discarding alpha." -/
def ColorMap.getSpecRound (m : ColorMap) (x y : ℚ) : Nat × Nat × Nat :=
  let xc := specClamp01 x
  let yr := xc * specClamp01 y
  let px := (round ((1 - xc) * 255)).toNat
  let py := (round ((1 - yr) * 255)).toNat
  ((m.img.pix px py).r, (m.img.pix px py).g, (m.img.pix px py).b)

/-- The spec sentence amended: same pipeline but with the truncating
conversion the Rust `as u8` cast actually performs. -/
def ColorMap.getSpecTrunc (m : ColorMap) (x y : ℚ) : Nat × Nat × Nat :=
  let xc := specClamp01 x
  let yr := xc * specClamp01 y
  let px := (Int.floor ((1 - xc) * 255)).toNat
  let py := (Int.floor ((1 - yr) * 255)).toNat
  ((m.img.pix px py).r, (m.img.pix px py).g, (m.img.pix px py).b)

/-- Run `load` on each name in order, threading the builder and collecting the
returned origins; `none` as soon as any call panics. -/
def loadList (decode : String → Option Img) (st : AtlasBuilder) :
    List String → Option (AtlasBuilder × List (Nat × Nat))
  | [] => some (st, [])
  | n :: ns =>
    match st.load decode n with
    | .panic _ => none
    | .ok p st1 => (loadList decode st1 ns).map (fun r => (r.1, p :: r.2))

/-- Number of placements consumed so far: a filled `size × size` square plus
`position` slots of the current ring. -/
def AtlasBuilder.placed (st : AtlasBuilder) : Nat :=
  st.completed_tiles_size * st.completed_tiles_size + st.position

/-- The placement-cursor invariant (spec §3): `position ≤ 2 · completed_tiles_size`. -/
def AtlasBuilder.cursorInv (st : AtlasBuilder) : Prop :=
  st.position ≤ 2 * st.completed_tiles_size

/-- Inverse of the growing-square spiral: the placement index at which grid
cell `c` is filled. -/
def coordKey (c : Nat × Nat) : Nat :=
  if c.1 < c.2 then c.2 * c.2 + c.1 else c.1 * c.1 + c.1 + c.2

/-- Membership of the point `(px, py)` in the half-open `w × h` rectangle
anchored at `p`. -/
def InRect (p : Nat × Nat) (w h px py : Nat) : Prop :=
  p.1 ≤ px ∧ px < p.1 + w ∧ p.2 ≤ py ∧ py < p.2 + h

/-- Disjointness of the `uw × uh` rectangles anchored at `p` and `q`. -/
def RectDisjoint (uw uh : Nat) (p q : Nat × Nat) : Prop :=
  ∀ px py, ¬ (InRect p uw uh px py ∧ InRect q uw uh px py)

/-- Raster-size invariant maintained by `load` when the unit dimensions are
positive: units never change, dimensions are the initial `4·unit` size scaled
by one shared power of two, the raster covers the completed square, strictly
so once the current ring has started. -/
def dimsInv (uw uh : Nat) (st : AtlasBuilder) : Prop :=
  st.unit_width = uw ∧ st.unit_height = uh ∧
  (∃ e : Nat, st.image.width = (uw * 4) * 2 ^ e ∧ st.image.height = (uh * 4) * 2 ^ e) ∧
  uw * st.completed_tiles_size ≤ st.image.width ∧
  uh * st.completed_tiles_size ≤ st.image.height ∧
  (st.position ≠ 0 →
    uw * st.completed_tiles_size < st.image.width ∧
    uh * st.completed_tiles_size < st.image.height)

/-- A 16×16 tile image used to instantiate the theorems at concrete inputs. -/
def demoImg : Img := ⟨16, 16, fun _ _ => ⟨10, 20, 30, 40⟩⟩

/-- A codec that decodes every name to `demoImg`. -/
def demoDecode : String → Option Img := fun _ => some demoImg

/-- A codec for which every decode fails. -/
def failDecode : String → Option Img := fun _ => none

/-- A `ColorMap` raster whose red/green channels encode the pixel coordinates
(mod 256), so distinct pixels are distinguishable. -/
def demoColorMap : ColorMap :=
  ⟨⟨256, 256, fun ix iy => ⟨ix % 256, iy % 256, 0, 255⟩⟩⟩

/-- A builder whose tile-position cache already holds the name `"a"`, used to
instantiate the cache-hit theorems at a concrete input. -/
def demoHitState : AtlasBuilder :=
  { AtlasBuilder.new 16 16 with tile_positions := [(("a" : String), (0, 0))] }

/-! ### Helper lemmas about a single `load` call -/

theorem load_hit (st : AtlasBuilder) (decode : String → Option Img) (name : String)
    (pos : Nat × Nat) (h : List.lookup name st.tile_positions = some pos) :
    st.load decode name = .ok pos st := by
  simp [AtlasBuilder.load, h]

theorem load_miss_ok (st : AtlasBuilder) (decode : String → Option Img) (name : String)
    (img : Img)
    (hmiss : List.lookup name st.tile_positions = none)
    (hdec : decode name = some img)
    (hw : img.width = st.unit_width)
    (huh : st.unit_height ≠ 0)
    (hmod : img.height % st.unit_height = 0) :
    st.load decode name = .ok (loadPlace st name img).1 (loadPlace st name img).2 := by
  simp [AtlasBuilder.load, hmiss, hdec, hw, huh, hmod]

theorem load_miss_panic (st : AtlasBuilder) (decode : String → Option Img) (name : String)
    (hmiss : List.lookup name st.tile_positions = none)
    (hdec : decode name = none) :
    st.load decode name = .panic .unwrapDecode := by
  simp [AtlasBuilder.load, hmiss, hdec]

theorem load_miss_badwidth (st : AtlasBuilder) (decode : String → Option Img) (name : String)
    (img : Img)
    (hmiss : List.lookup name st.tile_positions = none)
    (hdec : decode name = some img)
    (hw : img.width ≠ st.unit_width) :
    st.load decode name = .panic .assertWidth := by
  simp [AtlasBuilder.load, hmiss, hdec, hw]

theorem load_miss_unitzero (st : AtlasBuilder) (decode : String → Option Img) (name : String)
    (img : Img)
    (hmiss : List.lookup name st.tile_positions = none)
    (hdec : decode name = some img)
    (hw : img.width = st.unit_width)
    (huh : st.unit_height = 0) :
    st.load decode name = .panic .remainderZero := by
  simp [AtlasBuilder.load, hmiss, hdec, hw, huh]

theorem load_miss_badmod (st : AtlasBuilder) (decode : String → Option Img) (name : String)
    (img : Img)
    (hmiss : List.lookup name st.tile_positions = none)
    (hdec : decode name = some img)
    (hw : img.width = st.unit_width)
    (huh : st.unit_height ≠ 0)
    (hmod : img.height % st.unit_height ≠ 0) :
    st.load decode name = .panic .assertHeightMod := by
  simp [AtlasBuilder.load, hmiss, hdec, hw, huh, hmod]

theorem load_ok_inv (st : AtlasBuilder) (decode : String → Option Img) (name : String)
    (p : Nat × Nat) (st1 : AtlasBuilder)
    (h : st.load decode name = .ok p st1) :
    (List.lookup name st.tile_positions = some p ∧ st1 = st) ∨
    (List.lookup name st.tile_positions = none ∧ ∃ img, decode name = some img ∧
      img.width = st.unit_width ∧ st.unit_height ≠ 0 ∧ img.height % st.unit_height = 0 ∧
      p = (loadPlace st name img).1 ∧ st1 = (loadPlace st name img).2) := by
  cases hl : List.lookup name st.tile_positions with
  | some q =>
    rw [load_hit st decode name q hl] at h
    simp only [LoadOutcome.ok.injEq] at h
    exact Or.inl ⟨by rw [h.1], h.2.symm⟩
  | none =>
    cases hd : decode name with
    | none => rw [load_miss_panic st decode name hl hd] at h; cases h
    | some img =>
      by_cases hw : img.width = st.unit_width
      · by_cases huh : st.unit_height = 0
        · rw [load_miss_unitzero st decode name img hl hd hw huh] at h; cases h
        · by_cases hmod : img.height % st.unit_height = 0
          · rw [load_miss_ok st decode name img hl hd hw huh hmod] at h
            simp only [LoadOutcome.ok.injEq] at h
            exact Or.inr ⟨rfl, img, rfl, hw, huh, hmod, h.1.symm, h.2.symm⟩
          · rw [load_miss_badmod st decode name img hl hd hw huh hmod] at h; cases h
      · rw [load_miss_badwidth st decode name img hl hd hw] at h; cases h

/-! ### Projections of `loadPlace` -/

theorem loadPlace_fst (st : AtlasBuilder) (name : String) (img : Img) :
    (loadPlace st name img).1 =
      ((gridCoord st.completed_tiles_size st.position).1 * st.unit_width,
       (gridCoord st.completed_tiles_size st.position).2 * st.unit_height) := rfl

theorem loadPlace_size (st : AtlasBuilder) (name : String) (img : Img) :
    (loadPlace st name img).2.completed_tiles_size =
      (advanceCursor st.completed_tiles_size st.position).1 := rfl

theorem loadPlace_pos (st : AtlasBuilder) (name : String) (img : Img) :
    (loadPlace st name img).2.position =
      (advanceCursor st.completed_tiles_size st.position).2 := rfl

theorem loadPlace_tiles (st : AtlasBuilder) (name : String) (img : Img) :
    (loadPlace st name img).2.tile_positions =
      (name, (loadPlace st name img).1) :: st.tile_positions := rfl

theorem loadPlace_uw (st : AtlasBuilder) (name : String) (img : Img) :
    (loadPlace st name img).2.unit_width = st.unit_width := rfl

theorem loadPlace_uh (st : AtlasBuilder) (name : String) (img : Img) :
    (loadPlace st name img).2.unit_height = st.unit_height := rfl

theorem loadPlace_image (st : AtlasBuilder) (name : String) (img : Img) :
    (loadPlace st name img).2.image =
      blit (if st.position = 0 ∧
              (st.unit_width * st.completed_tiles_size ≥ st.image.width ∨
               st.unit_height * st.completed_tiles_size ≥ st.image.height)
            then growImage st.image else st.image)
        img (loadPlace st name img).1.1 (loadPlace st name img).1.2
        st.unit_width st.unit_height := rfl

theorem blit_width (dest src : Img) (x y w h : Nat) :
    (blit dest src x y w h).width = dest.width := rfl

theorem blit_height (dest src : Img) (x y w h : Nat) :
    (blit dest src x y w h).height = dest.height := rfl

/-! ### Cursor arithmetic -/

theorem advanceCursor_placed (s p : Nat) (h : p ≤ 2 * s) :
    (advanceCursor s p).1 * (advanceCursor s p).1 + (advanceCursor s p).2 = s * s + p + 1 := by
  unfold advanceCursor
  by_cases hc : p + 1 ≥ s * 2 + 1
  · rw [if_pos hc]
    have hp : p = 2 * s := by omega
    subst hp; ring
  · rw [if_neg hc]
    exact (Nat.add_assoc (s * s) p 1).symm

theorem advanceCursor_inv (s p : Nat) (h : p ≤ 2 * s) :
    (advanceCursor s p).2 ≤ 2 * (advanceCursor s p).1 := by
  unfold advanceCursor
  by_cases hc : p + 1 ≥ s * 2 + 1
  · rw [if_pos hc]; exact Nat.zero_le _
  · rw [if_neg hc]; show p + 1 ≤ 2 * s; omega

theorem coordKey_gridCoord (s p : Nat) (h : p ≤ 2 * s) :
    coordKey (gridCoord s p) = s * s + p := by
  unfold gridCoord
  by_cases hc : p < s
  · rw [if_pos hc]
    unfold coordKey
    simp only
    rw [if_pos hc]
  · rw [if_neg hc]
    unfold coordKey
    simp only
    rw [if_neg (by omega)]
    have hs : s ≤ p := by omega
    generalize s * s = q
    omega

/-! ### Equation lemmas for `loadList` -/

theorem loadList_nil (decode : String → Option Img) (st : AtlasBuilder) :
    loadList decode st [] = some (st, []) := rfl

theorem loadList_cons (decode : String → Option Img) (st : AtlasBuilder)
    (n : String) (ns : List String) :
    loadList decode st (n :: ns) =
      (match st.load decode n with
       | .panic _ => none
       | .ok p st1 => (loadList decode st1 ns).map (fun r => (r.1, p :: r.2))) := rfl

theorem loadList_cons_ok (decode : String → Option Img) (st st1 : AtlasBuilder)
    (n : String) (ns : List String) (p : Nat × Nat)
    (h : st.load decode n = .ok p st1) :
    loadList decode st (n :: ns) =
      (loadList decode st1 ns).map (fun r => (r.1, p :: r.2)) := by
  rw [loadList_cons, h]

theorem loadList_cons_panic (decode : String → Option Img) (st : AtlasBuilder)
    (n : String) (ns : List String) (c : PanicCause)
    (h : st.load decode n = .panic c) :
    loadList decode st (n :: ns) = none := by
  rw [loadList_cons, h]

theorem lookup_cons_ne {β : Type} (k a : String) (b : β) (l : List (String × β))
    (h : a ≠ k) : List.lookup a ((k, b) :: l) = List.lookup a l := by
  simp [List.lookup_cons, beq_false_of_ne h]

/-! ### The master lemma: a run of distinct, cache-missing, successful loads -/

theorem loadList_spec (decode : String → Option Img) (names : List String) :
    ∀ (st st' : AtlasBuilder) (origins : List (Nat × Nat)),
      loadList decode st names = some (st', origins) →
      names.Nodup →
      (∀ n ∈ names, List.lookup n st.tile_positions = none) →
      st.cursorInv →
      st'.cursorInv ∧ st'.placed = st.placed + names.length ∧
      st'.unit_width = st.unit_width ∧ st'.unit_height = st.unit_height ∧
      ∃ coords : List (Nat × Nat),
        origins = coords.map (fun c => (c.1 * st.unit_width, c.2 * st.unit_height)) ∧
        coords.map coordKey = List.range' st.placed names.length := by
  induction names with
  | nil =>
    intro st st' origins h _ _ hinv
    rw [loadList_nil] at h
    simp only [Option.some.injEq, Prod.mk.injEq] at h
    obtain ⟨h1, h2⟩ := h
    subst h1; subst h2
    exact ⟨hinv, by simp, rfl, rfl, [], by simp, by simp⟩
  | cons n ns ih =>
    intro st st' origins h hnd hmiss hinv
    cases hld : st.load decode n with
    | panic c => rw [loadList_cons_panic decode st n ns c hld] at h; cases h
    | ok p st1 =>
      rw [loadList_cons_ok decode st st1 n ns p hld] at h
      cases hrec : loadList decode st1 ns with
      | none => rw [hrec] at h; cases h
      | some r =>
        rw [hrec] at h
        simp only [Option.map_some', Option.some.injEq, Prod.mk.injEq] at h
        obtain ⟨hst', horig⟩ := h
        rcases load_ok_inv st decode n p st1 hld with ⟨hhit, _⟩ | hplace
        · rw [hmiss n (List.mem_cons_self n ns)] at hhit; cases hhit
        · obtain ⟨_, img, _, _, _, _, hp, hst1⟩ := hplace
          have hnodup_tail : ns.Nodup := (List.nodup_cons.mp hnd).2
          have hn_notin : n ∉ ns := (List.nodup_cons.mp hnd).1
          have hinv1 : st1.cursorInv := by
            rw [hst1]
            show (loadPlace st n img).2.position ≤ 2 * (loadPlace st n img).2.completed_tiles_size
            rw [loadPlace_pos, loadPlace_size]
            exact advanceCursor_inv st.completed_tiles_size st.position hinv
          have hplaced1 : st1.placed = st.placed + 1 := by
            rw [hst1]
            show (loadPlace st n img).2.completed_tiles_size *
                   (loadPlace st n img).2.completed_tiles_size +
                 (loadPlace st n img).2.position =
                 st.completed_tiles_size * st.completed_tiles_size + st.position + 1
            rw [loadPlace_pos, loadPlace_size]
            exact advanceCursor_placed st.completed_tiles_size st.position hinv
          have huw1 : st1.unit_width = st.unit_width := by rw [hst1, loadPlace_uw]
          have huh1 : st1.unit_height = st.unit_height := by rw [hst1, loadPlace_uh]
          have hmiss1 : ∀ m ∈ ns, List.lookup m st1.tile_positions = none := by
            intro m hm
            rw [hst1, loadPlace_tiles]
            rw [lookup_cons_ne n m _ _ (fun hmn => hn_notin (hmn ▸ hm))]
            exact hmiss m (List.mem_cons_of_mem n hm)
          obtain ⟨hinv', hplaced', huw', huh', coords', hcoords1, hcoords2⟩ :=
            ih st1 r.1 r.2 (by rw [hrec]) hnodup_tail hmiss1 hinv1
          refine ⟨hst' ▸ hinv', ?_, ?_, ?_,
            gridCoord st.completed_tiles_size st.position :: coords', ?_, ?_⟩
          · rw [← hst', hplaced', hplaced1, List.length_cons]; omega
          · rw [← hst', huw', huw1]
          · rw [← hst', huh', huh1]
          · rw [← horig, List.map_cons, hp, loadPlace_fst, hcoords1, huw1, huh1]
          · rw [List.map_cons, hcoords2, coordKey_gridCoord st.completed_tiles_size st.position hinv,
              hplaced1, List.length_cons, List.range'_succ]
            show _ :: List.range' (st.placed + 1) ns.length = _ :: List.range' (st.placed + 1) ns.length
            rfl

/-! ### Disjointness of scaled unit rectangles -/

theorem unit_interval_eq {u a b x : Nat} (hu : 0 < u)
    (ha1 : a * u ≤ x) (ha2 : x < a * u + u) (hb1 : b * u ≤ x) (hb2 : x < b * u + u) :
    a = b := by
  have h1 : x / u = a := Nat.div_eq_of_lt_le ha1 (by rw [Nat.succ_mul]; omega)
  have h2 : x / u = b := Nat.div_eq_of_lt_le hb1 (by rw [Nat.succ_mul]; omega)
  omega

theorem scale_disjoint (uw uh : Nat) (c d : Nat × Nat) (hne : c ≠ d) :
    RectDisjoint uw uh (c.1 * uw, c.2 * uh) (d.1 * uw, d.2 * uh) := by
  intro px py hmem
  obtain ⟨hc, hd⟩ := hmem
  obtain ⟨hc1, hc2, hc3, hc4⟩ := hc
  obtain ⟨hd1, hd2, hd3, hd4⟩ := hd
  simp only at hc1 hc2 hc3 hc4 hd1 hd2 hd3 hd4
  rcases Nat.eq_zero_or_pos uw with huw | huw
  · subst huw; omega
  rcases Nat.eq_zero_or_pos uh with huh | huh
  · subst huh; omega
  have h1 : c.1 = d.1 := unit_interval_eq huw hc1 hc2 hd1 hd2
  have h2 : c.2 = d.2 := unit_interval_eq huh hc3 hc4 hd3 hd4
  exact hne (Prod.ext_iff.mpr ⟨h1, h2⟩)

/-! ### Component equations for `advanceCursor` and `growImage` -/

theorem growImage_width (i : Img) : (growImage i).width = i.width * 2 := rfl

theorem growImage_height (i : Img) : (growImage i).height = i.height * 2 := rfl

theorem growImage_pix (i : Img) (ix iy : Nat) (hx : ix < i.width) (hy : iy < i.height) :
    (growImage i).pix ix iy = i.pix ix iy := by
  show (if ix < i.width ∧ iy < i.height then i.pix ix iy else rgbaZero) = i.pix ix iy
  rw [if_pos ⟨hx, hy⟩]

theorem advanceCursor_complete_fst (s p : Nat) (h : p + 1 ≥ s * 2 + 1) :
    (advanceCursor s p).1 = s + 1 := by
  unfold advanceCursor; rw [if_pos h]

theorem advanceCursor_complete_snd (s p : Nat) (h : p + 1 ≥ s * 2 + 1) :
    (advanceCursor s p).2 = 0 := by
  unfold advanceCursor; rw [if_pos h]

theorem advanceCursor_mid_fst (s p : Nat) (h : ¬ p + 1 ≥ s * 2 + 1) :
    (advanceCursor s p).1 = s := by
  unfold advanceCursor; rw [if_neg h]

theorem advanceCursor_mid_snd (s p : Nat) (h : ¬ p + 1 ≥ s * 2 + 1) :
    (advanceCursor s p).2 = p + 1 := by
  unfold advanceCursor; rw [if_neg h]

/-! ### Preservation of the raster-size invariant -/

theorem loadPlace_dimsInv (uw uh : Nat) (huw : 0 < uw) (huh : 0 < uh)
    (st : AtlasBuilder) (name : String) (img : Img)
    (hinv : dimsInv uw uh st) : dimsInv uw uh (loadPlace st name img).2 := by
  obtain ⟨h1, h2, ⟨e, hw, hh⟩, h4, h5, h6⟩ := hinv
  have hW1 : 1 ≤ 2 ^ e := Nat.one_le_two_pow
  have hwpos : 0 < st.image.width := by rw [hw]; positivity
  have hhpos : 0 < st.image.height := by rw [hh]; positivity
  unfold dimsInv
  rw [loadPlace_uw, loadPlace_uh, loadPlace_image, blit_width, blit_height,
    loadPlace_size, loadPlace_pos, h1, h2]
  refine ⟨rfl, rfl, ?_⟩
  by_cases hT : st.position = 0 ∧
      (uw * st.completed_tiles_size ≥ st.image.width ∨
       uh * st.completed_tiles_size ≥ st.image.height)
  · rw [if_pos hT, growImage_width, growImage_height]
    by_cases hc : st.position + 1 ≥ st.completed_tiles_size * 2 + 1
    · have hs0 : st.completed_tiles_size = 0 := by omega
      rw [advanceCursor_complete_fst _ _ hc, advanceCursor_complete_snd _ _ hc, hs0]
      refine ⟨⟨e + 1, by rw [hw]; ring, by rw [hh]; ring⟩, ?_, ?_, fun hcon => absurd rfl hcon⟩
      · have ha : uw * 1 ≤ uw * (8 * 2 ^ e) := Nat.mul_le_mul (Nat.le_refl uw) (by omega)
        have hb : uw * 4 * 2 ^ e * 2 = uw * (8 * 2 ^ e) := by ring
        rw [hw]; omega
      · have ha : uh * 1 ≤ uh * (8 * 2 ^ e) := Nat.mul_le_mul (Nat.le_refl uh) (by omega)
        have hb : uh * 4 * 2 ^ e * 2 = uh * (8 * 2 ^ e) := by ring
        rw [hh]; omega
    · rw [advanceCursor_mid_fst _ _ hc, advanceCursor_mid_snd _ _ hc]
      refine ⟨⟨e + 1, by rw [hw]; ring, by rw [hh]; ring⟩, by omega, by omega,
        fun _ => ⟨by omega, by omega⟩⟩
  · rw [if_neg hT]
    by_cases hp0 : st.position = 0
    · have hAB : ¬ (uw * st.completed_tiles_size ≥ st.image.width ∨
          uh * st.completed_tiles_size ≥ st.image.height) :=
        fun hab => hT ⟨hp0, hab⟩
      push_neg at hAB
      obtain ⟨hstw, hsth⟩ := hAB
      by_cases hc : st.position + 1 ≥ st.completed_tiles_size * 2 + 1
      · have hs0 : st.completed_tiles_size = 0 := by omega
        rw [advanceCursor_complete_fst _ _ hc, advanceCursor_complete_snd _ _ hc, hs0]
        refine ⟨⟨e, hw, hh⟩, ?_, ?_, fun hcon => absurd rfl hcon⟩
        · have ha : uw * 1 ≤ uw * (4 * 2 ^ e) := Nat.mul_le_mul (Nat.le_refl uw) (by omega)
          have hb : uw * 4 * 2 ^ e = uw * (4 * 2 ^ e) := by ring
          rw [hw]; omega
        · have ha : uh * 1 ≤ uh * (4 * 2 ^ e) := Nat.mul_le_mul (Nat.le_refl uh) (by omega)
          have hb : uh * 4 * 2 ^ e = uh * (4 * 2 ^ e) := by ring
          rw [hh]; omega
      · rw [advanceCursor_mid_fst _ _ hc, advanceCursor_mid_snd _ _ hc]
        exact ⟨⟨e, hw, hh⟩, Nat.le_of_lt hstw, Nat.le_of_lt hsth,
          fun _ => ⟨hstw, hsth⟩⟩
    · obtain ⟨hstw, hsth⟩ := h6 hp0
      by_cases hc : st.position + 1 ≥ st.completed_tiles_size * 2 + 1
      · rw [advanceCursor_complete_fst _ _ hc, advanceCursor_complete_snd _ _ hc]
        refine ⟨⟨e, hw, hh⟩, ?_, ?_, fun hcon => absurd rfl hcon⟩
        · have hwW : st.image.width = uw * (4 * 2 ^ e) := by rw [hw]; ring
          rw [hwW] at hstw ⊢
          exact Nat.mul_le_mul (Nat.le_refl uw)
            (Nat.succ_le_of_lt (Nat.lt_of_mul_lt_mul_left hstw))
        · have hhW : st.image.height = uh * (4 * 2 ^ e) := by rw [hh]; ring
          rw [hhW] at hsth ⊢
          exact Nat.mul_le_mul (Nat.le_refl uh)
            (Nat.succ_le_of_lt (Nat.lt_of_mul_lt_mul_left hsth))
      · rw [advanceCursor_mid_fst _ _ hc, advanceCursor_mid_snd _ _ hc]
        exact ⟨⟨e, hw, hh⟩, Nat.le_of_lt hstw, Nat.le_of_lt hsth,
          fun _ => ⟨hstw, hsth⟩⟩

theorem load_ok_dimsInv (uw uh : Nat) (huw : 0 < uw) (huh : 0 < uh)
    (st st1 : AtlasBuilder) (decode : String → Option Img) (name : String) (p : Nat × Nat)
    (hld : st.load decode name = .ok p st1) (hinv : dimsInv uw uh st) :
    dimsInv uw uh st1 := by
  rcases load_ok_inv st decode name p st1 hld with ⟨_, hst⟩ | ⟨_, img, _, _, _, _, _, hst⟩
  · rw [hst]; exact hinv
  · rw [hst]; exact loadPlace_dimsInv uw uh huw huh st name img hinv

theorem loadList_dimsInv (uw uh : Nat) (huw : 0 < uw) (huh : 0 < uh)
    (decode : String → Option Img) (names : List String) :
    ∀ (st st' : AtlasBuilder) (origins : List (Nat × Nat)),
      loadList decode st names = some (st', origins) →
      dimsInv uw uh st → dimsInv uw uh st' := by
  induction names with
  | nil =>
    intro st st' origins h hinv
    rw [loadList_nil] at h
    simp only [Option.some.injEq, Prod.mk.injEq] at h
    rw [← h.1]; exact hinv
  | cons n ns ih =>
    intro st st' origins h hinv
    cases hld : st.load decode n with
    | panic c => rw [loadList_cons_panic decode st n ns c hld] at h; cases h
    | ok p st1 =>
      rw [loadList_cons_ok decode st st1 n ns p hld] at h
      cases hrec : loadList decode st1 ns with
      | none => rw [hrec] at h; cases h
      | some r =>
        rw [hrec] at h
        simp only [Option.map_some', Option.some.injEq, Prod.mk.injEq] at h
        rw [← h.1]
        exact ih st1 r.1 r.2 (by rw [hrec])
          (load_ok_dimsInv uw uh huw huh st st1 decode n p hld hinv)

/-- `AtlasBuilder.new` satisfies the raster-size invariant. -/
theorem new_dimsInv (uw uh : Nat) : dimsInv uw uh (AtlasBuilder.new uw uh) := by
  refine ⟨rfl, rfl, ⟨0, by simp [AtlasBuilder.new, Img.new], by simp [AtlasBuilder.new, Img.new]⟩,
    by simp [AtlasBuilder.new], by simp [AtlasBuilder.new], fun hcon => absurd rfl hcon⟩

/-! ### Helper lemmas about `min_alpha` and the rectangle scan -/

theorem rectAlphas_mem_iff (img : Img) (x y w h a : Nat) :
    a ∈ rectAlphas img x y w h ↔
      ∃ j, j < h ∧ ∃ i, i < w ∧ (img.pix (x + i) (y + j)).a = a := by
  unfold rectAlphas
  constructor
  · intro hm
    obtain ⟨j, hj, hmm⟩ := List.mem_flatMap.mp hm
    obtain ⟨i, hi, he⟩ := List.mem_map.mp hmm
    exact ⟨j, List.mem_range.mp hj, i, List.mem_range.mp hi, he⟩
  · intro hm
    obtain ⟨j, hj, i, hi, he⟩ := hm
    exact List.mem_flatMap.mpr ⟨j, List.mem_range.mpr hj,
      List.mem_map.mpr ⟨i, List.mem_range.mpr hi, he⟩⟩

theorem minAlphaRect_le (img : Img) (x y w h i j : Nat) (hi : i < w) (hj : j < h) :
    img.minAlphaRect x y w h ≤ (img.pix (x + i) (y + j)).a := by
  unfold Img.minAlphaRect
  have hmem : (img.pix (x + i) (y + j)).a ∈ rectAlphas img x y w h :=
    (rectAlphas_mem_iff img x y w h _).mpr ⟨j, hj, i, hi, rfl⟩
  cases hmin : (rectAlphas img x y w h).min? with
  | none =>
    rw [List.min?_eq_none_iff] at hmin
    rw [hmin] at hmem; cases hmem
  | some m =>
    have := (List.min?_eq_some_iff'.mp hmin).2 _ hmem
    simpa using this

theorem minAlphaRect_attained (img : Img) (x y w h : Nat) (hw : 0 < w) (hh : 0 < h) :
    ∃ i, i < w ∧ ∃ j, j < h ∧ img.minAlphaRect x y w h = (img.pix (x + i) (y + j)).a := by
  unfold Img.minAlphaRect
  cases hmin : (rectAlphas img x y w h).min? with
  | none =>
    rw [List.min?_eq_none_iff] at hmin
    have hmem : (img.pix (x + 0) (y + 0)).a ∈ rectAlphas img x y w h :=
      (rectAlphas_mem_iff img x y w h _).mpr ⟨0, hh, 0, hw, rfl⟩
    rw [hmin] at hmem; cases hmem
  | some m =>
    have hm := (List.min?_eq_some_iff'.mp hmin).1
    obtain ⟨j, hj, i, hi, he⟩ := (rectAlphas_mem_iff img x y w h m).mp hm
    exact ⟨i, hi, j, hj, by simp [he.symm]⟩

theorem minAlphaRect_empty (img : Img) (x y w h : Nat) (hwh : w = 0 ∨ h = 0) :
    img.minAlphaRect x y w h = 0 := by
  have hnil : rectAlphas img x y w h = [] := by
    cases hwh with
    | inl h0 => subst h0; simp [rectAlphas]
    | inr h0 => subst h0; simp [rectAlphas]
  unfold Img.minAlphaRect
  rw [hnil]; rfl

theorem min_alpha_hit (st : AtlasBuilder) (x y w h alpha : Nat)
    (hc : List.lookup (x, y, w, h) st.min_alpha_cache = some alpha) :
    st.min_alpha (x, y, w, h) = (alpha, st) := by
  simp [AtlasBuilder.min_alpha, hc]

theorem min_alpha_miss (st : AtlasBuilder) (x y w h : Nat)
    (hc : List.lookup (x, y, w, h) st.min_alpha_cache = none) :
    st.min_alpha (x, y, w, h) =
      (st.image.minAlphaRect x y w h,
       { st with min_alpha_cache :=
           ((x, y, w, h), st.image.minAlphaRect x y w h) :: st.min_alpha_cache }) := by
  simp [AtlasBuilder.min_alpha, hc]

theorem lookup_cons_self {α β : Type} [BEq α] [LawfulBEq α] (k : α) (b : β)
    (l : List (α × β)) : List.lookup k ((k, b) :: l) = some b := by
  simp [List.lookup_cons]

/-! ### Claim theorems -/

/-- C2: a cache-missing successful `load` places at grid coordinate
`(position, size)` when `position < size` and `(size, position - size)`
otherwise, returns that coordinate scaled componentwise by the unit
dimensions, and afterwards increments `position`, resetting it to `0` and
incrementing `completed_tiles_size` exactly when the incremented position
reaches `2 * size + 1`. -/
theorem C2_load_miss_step (decode : String → Option Img) (st : AtlasBuilder)
    (name : String) (img : Img)
    (hmiss : List.lookup name st.tile_positions = none)
    (hdec : decode name = some img)
    (hwidth : img.width = st.unit_width)
    (huh : st.unit_height ≠ 0)
    (hmod : img.height % st.unit_height = 0) :
    ∃ st1, st.load decode name =
        .ok ((if st.position < st.completed_tiles_size
              then (st.position, st.completed_tiles_size)
              else (st.completed_tiles_size, st.position - st.completed_tiles_size)).1
               * st.unit_width,
             (if st.position < st.completed_tiles_size
              then (st.position, st.completed_tiles_size)
              else (st.completed_tiles_size, st.position - st.completed_tiles_size)).2
               * st.unit_height) st1 ∧
      (st.position + 1 ≥ 2 * st.completed_tiles_size + 1 →
        st1.position = 0 ∧ st1.completed_tiles_size = st.completed_tiles_size + 1) ∧
      (st.position + 1 < 2 * st.completed_tiles_size + 1 →
        st1.position = st.position + 1 ∧
        st1.completed_tiles_size = st.completed_tiles_size) := by
  refine ⟨(loadPlace st name img).2, ?_, ?_, ?_⟩
  · rw [load_miss_ok st decode name img hmiss hdec hwidth huh hmod, loadPlace_fst]
    rfl
  · intro hge
    rw [loadPlace_pos, loadPlace_size,
      advanceCursor_complete_snd _ _ (by omega), advanceCursor_complete_fst _ _ (by omega)]
    exact ⟨rfl, rfl⟩
  · intro hlt
    rw [loadPlace_pos, loadPlace_size,
      advanceCursor_mid_snd _ _ (by omega), advanceCursor_mid_fst _ _ (by omega)]
    exact ⟨rfl, rfl⟩

/-- C2 witness: the first load on a fresh 16×16 builder goes to origin
`(0, 0)` and completes ring 0 (one slot), as `C2_load_miss_step` predicts. -/
theorem C2_witness :
    ∃ st1, (AtlasBuilder.new 16 16).load demoDecode ("a") = .ok (0, 0) st1 ∧
      st1.position = 0 ∧ st1.completed_tiles_size = 1 := by
  obtain ⟨st1, h1, h2, _⟩ :=
    C2_load_miss_step demoDecode (AtlasBuilder.new 16 16) ("a") demoImg
      rfl rfl rfl (by decide) (by decide)
  refine ⟨st1, ?_, h2 (by decide)⟩
  simpa using h1

/-- C3: during a cache-missing successful `load` the raster dimensions double
exactly when `position = 0` and a unit-scaled `completed_tiles_size` reaches
the current width or height, and the doubling reallocation (`growImage`)
preserves every old pixel at its coordinate while exactly doubling both
dimensions. -/
theorem C3_growth (decode : String → Option Img) (st : AtlasBuilder)
    (name : String) (img : Img)
    (hmiss : List.lookup name st.tile_positions = none)
    (hdec : decode name = some img)
    (hwidth : img.width = st.unit_width)
    (huh : st.unit_height ≠ 0)
    (hmod : img.height % st.unit_height = 0) :
    ∃ p st1, st.load decode name = .ok p st1 ∧
      ((st1.image.width, st1.image.height) =
        if st.position = 0 ∧
            (st.unit_width * st.completed_tiles_size ≥ st.image.width ∨
             st.unit_height * st.completed_tiles_size ≥ st.image.height)
        then (st.image.width * 2, st.image.height * 2)
        else (st.image.width, st.image.height)) ∧
      (growImage st.image).width = st.image.width * 2 ∧
      (growImage st.image).height = st.image.height * 2 ∧
      (∀ ix iy, ix < st.image.width → iy < st.image.height →
        (growImage st.image).pix ix iy = st.image.pix ix iy) := by
  refine ⟨(loadPlace st name img).1, (loadPlace st name img).2,
    load_miss_ok st decode name img hmiss hdec hwidth huh hmod, ?_,
    growImage_width st.image, growImage_height st.image,
    fun ix iy hx hy => growImage_pix st.image ix iy hx hy⟩
  rw [loadPlace_image, blit_width, blit_height]
  by_cases hT : st.position = 0 ∧
      (st.unit_width * st.completed_tiles_size ≥ st.image.width ∨
       st.unit_height * st.completed_tiles_size ≥ st.image.height)
  · rw [if_pos hT, if_pos hT, growImage_width, growImage_height]
  · rw [if_neg hT, if_neg hT]

/-- C3 witness: with the cursor at the start of ring 4 on a 64×64 raster with
16×16 units, the growth trigger fires and the raster doubles to 128×128. -/
theorem C3_witness :
    ∃ p st1,
      ({ AtlasBuilder.new 16 16 with completed_tiles_size := 4 }.load demoDecode ("a")) =
        .ok p st1 ∧
      st1.image.width = 128 ∧ st1.image.height = 128 := by
  obtain ⟨p, st1, h1, h2, _⟩ :=
    C3_growth demoDecode { AtlasBuilder.new 16 16 with completed_tiles_size := 4 } ("a")
      demoImg rfl rfl rfl (by decide) (by decide)
  rw [if_pos (by constructor; rfl; left; decide)] at h2
  have hw : st1.image.width = 128 := by
    have := congrArg Prod.fst h2
    simpa using this
  have hh : st1.image.height = 128 := by
    have := congrArg Prod.snd h2
    simpa using this
  exact ⟨p, st1, h1, hw, hh⟩

/-- C6: a `load` whose name is already in the tile-position cache returns the
stored origin with the builder unchanged, for every codec (so no decode I/O
can be observed), and no later successful `load` ever changes that stored
entry. -/
theorem C6_cache_hit (st : AtlasBuilder) (name : String) (pos : Nat × Nat)
    (h : List.lookup name st.tile_positions = some pos) :
    (∀ decode, st.load decode name = .ok pos st) ∧
    (∀ decode name2 p2 st2, st.load decode name2 = .ok p2 st2 →
      List.lookup name st2.tile_positions = some pos) := by
  constructor
  · intro decode
    exact load_hit st decode name pos h
  · intro decode name2 p2 st2 hld
    rcases load_ok_inv st decode name2 p2 st2 hld with ⟨_, hst⟩ | hplace
    · rw [hst]; exact h
    · obtain ⟨hm, img, _, _, _, _, _, hst⟩ := hplace
      rw [hst, loadPlace_tiles]
      have hne : name ≠ name2 := by
        intro he
        rw [he] at h
        rw [h] at hm
        cases hm
      rw [lookup_cons_ne name2 name _ _ hne]
      exact h

/-- C6 witness: on a builder whose cache holds `"a" ↦ (0, 0)`, a repeated load
of `"a"` returns `(0, 0)` unchanged for both a working and a failing codec. -/
theorem C6_witness :
    demoHitState.load demoDecode ("a") = .ok (0, 0) demoHitState ∧
    demoHitState.load failDecode ("a") = .ok (0, 0) demoHitState := by
  have h := C6_cache_hit demoHitState ("a") (0, 0) (by simp [demoHitState, lookup_cons_self])
  exact ⟨h.1 demoDecode, h.1 failDecode⟩

/-- C9 (amended): when the decode of `base_path/name.png` fails, a
cache-missing `load` panics (the source's `unwrap`), aborting the call rather
than returning any value; there is no retry and no recovery. -/
theorem C9_decode_failure_panics (decode : String → Option Img)
    (st : AtlasBuilder) (name : String)
    (hmiss : List.lookup name st.tile_positions = none)
    (hdec : decode name = none) :
    st.load decode name = .panic .unwrapDecode :=
  load_miss_panic st decode name hmiss hdec

/-- C9 counterexample: at the concrete fresh builder with an always-failing
codec, `load` evaluates to the `unwrap` panic.  `LoadOutcome` mirrors the
source signature `fn load(&mut self, name: &str) -> (u32, u32)`, which has no
error channel at all: the outcome is an abort, not a recoverable error value,
refuting the claim as stated. -/
theorem C9_counterexample :
    (AtlasBuilder.new 16 16).load failDecode ("missing") = .panic .unwrapDecode := rfl

/-- C9 witness for the amended claim, at the same concrete input. -/
theorem C9_witness :
    List.lookup ("missing") (AtlasBuilder.new 16 16).tile_positions = none ∧
    failDecode ("missing") = none ∧
    (AtlasBuilder.new 16 16).load failDecode ("missing") = .panic .unwrapDecode :=
  ⟨rfl, rfl,
    C9_decode_failure_panics failDecode (AtlasBuilder.new 16 16) ("missing") rfl rfl⟩

/-- C10: `min_alpha` mutates nothing but the min-alpha cache: raster, unit
dimensions, placement cursor and tile-position cache are all unchanged. -/
theorem C10_min_alpha_frame (st : AtlasBuilder) (rect : Nat × Nat × Nat × Nat) :
    (st.min_alpha rect).2.image = st.image ∧
    (st.min_alpha rect).2.unit_width = st.unit_width ∧
    (st.min_alpha rect).2.unit_height = st.unit_height ∧
    (st.min_alpha rect).2.completed_tiles_size = st.completed_tiles_size ∧
    (st.min_alpha rect).2.position = st.position ∧
    (st.min_alpha rect).2.tile_positions = st.tile_positions := by
  obtain ⟨x, y, w, h⟩ := rect
  cases hc : List.lookup (x, y, w, h) st.min_alpha_cache with
  | some alpha =>
    rw [min_alpha_hit st x y w h alpha hc]
    exact ⟨rfl, rfl, rfl, rfl, rfl, rfl⟩
  | none =>
    rw [min_alpha_miss st x y w h hc]
    exact ⟨rfl, rfl, rfl, rfl, rfl, rfl⟩

/-- C7: for a rectangle lying within the raster, a first (cache-missing)
`min_alpha` call returns the minimum alpha byte over all pixels of the
rectangle — `0` when the rectangle is empty — and a repeated call with the
same rectangle returns the identical memoized value without re-scanning: the
repeated result is a cache hit that no longer depends on the raster at all. -/
theorem C7_min_alpha_spec (st : AtlasBuilder) (x y w h : Nat)
    (hmiss : List.lookup (x, y, w, h) st.min_alpha_cache = none)
    (hxw : x + w ≤ st.image.width) (hyh : y + h ≤ st.image.height) :
    ((w = 0 ∨ h = 0) → (st.min_alpha (x, y, w, h)).1 = 0) ∧
    (∀ i j, i < w → j < h →
      (st.min_alpha (x, y, w, h)).1 ≤ (st.image.pix (x + i) (y + j)).a) ∧
    (0 < w → 0 < h → ∃ i, i < w ∧ ∃ j, j < h ∧
      (st.min_alpha (x, y, w, h)).1 = (st.image.pix (x + i) (y + j)).a) ∧
    ((st.min_alpha (x, y, w, h)).2.min_alpha (x, y, w, h) =
      ((st.min_alpha (x, y, w, h)).1, (st.min_alpha (x, y, w, h)).2)) ∧
    (∀ img2 : Img,
      ({ (st.min_alpha (x, y, w, h)).2 with image := img2 }.min_alpha (x, y, w, h)) =
        ((st.min_alpha (x, y, w, h)).1,
         { (st.min_alpha (x, y, w, h)).2 with image := img2 })) := by
  rw [min_alpha_miss st x y w h hmiss]
  refine ⟨?_, ?_, ?_, ?_, ?_⟩
  · intro hwh
    exact minAlphaRect_empty st.image x y w h hwh
  · intro i j hi hj
    exact minAlphaRect_le st.image x y w h i j hi hj
  · intro hw hh
    exact minAlphaRect_attained st.image x y w h hw hh
  · exact min_alpha_hit _ x y w h _ (lookup_cons_self _ _ _)
  · intro img2
    exact min_alpha_hit _ x y w h _ (lookup_cons_self _ _ _)

/-- C7 witness: on a fresh 16×16 builder the 2×2 rectangle at the origin is in
bounds, the scan result bounds the pixel at the origin, and the repeated call
returns the memoized pair unchanged. -/
theorem C7_witness :
    ((AtlasBuilder.new 16 16).min_alpha (0, 0, 2, 2)).1 ≤
      ((AtlasBuilder.new 16 16).image.pix 0 0).a ∧
    ((AtlasBuilder.new 16 16).min_alpha (0, 0, 2, 2)).2.min_alpha (0, 0, 2, 2) =
      (((AtlasBuilder.new 16 16).min_alpha (0, 0, 2, 2)).1,
       ((AtlasBuilder.new 16 16).min_alpha (0, 0, 2, 2)).2) := by
  obtain ⟨h1, h2, h3, h4, h5⟩ :=
    C7_min_alpha_spec (AtlasBuilder.new 16 16) 0 0 2 2 rfl (by decide) (by decide)
  exact ⟨by simpa using h2 0 0 (by decide) (by decide), h4⟩

/-- C1: loading any number of pairwise distinct tile names (all decoding
successfully) into a fresh builder returns pixel origins whose
`unit_width × unit_height` rectangles are pairwise disjoint. -/
theorem C1_origins_disjoint (decode : String → Option Img) (uw uh : Nat)
    (names : List String) (st' : AtlasBuilder) (origins : List (Nat × Nat))
    (hN : 1 ≤ names.length) (hnodup : names.Nodup)
    (hload : loadList decode (AtlasBuilder.new uw uh) names = some (st', origins)) :
    origins.Pairwise (RectDisjoint uw uh) := by
  obtain ⟨_, _, _, _, coords, hco, hck⟩ :=
    loadList_spec decode names (AtlasBuilder.new uw uh) st' origins hload hnodup
      (fun n _ => rfl) (Nat.zero_le 0)
  have hknodup : (coords.map coordKey).Nodup := by
    rw [hck]; exact List.nodup_range' _ _
  have hcnodup : coords.Nodup := List.Nodup.of_map coordKey hknodup
  have horig : origins = coords.map (fun c => (c.1 * uw, c.2 * uh)) := hco
  rw [horig]
  exact List.Pairwise.map _ (fun a b hab => scale_disjoint uw uh a b hab) hcnodup

/-- C1 witness: loading the two distinct names `"a"`, `"b"` into a fresh
16×16 builder yields origins with pairwise disjoint 16×16 rectangles. -/
theorem C1_witness :
    ∃ st' origins,
      loadList demoDecode (AtlasBuilder.new 16 16) [("a" : String), ("b" : String)] =
        some (st', origins) ∧
      origins.Pairwise (RectDisjoint 16 16) := by
  have hs : (loadList demoDecode (AtlasBuilder.new 16 16)
      [("a" : String), ("b" : String)]).isSome = true := rfl
  obtain ⟨r, hr⟩ := Option.isSome_iff_exists.mp hs
  exact ⟨r.1, r.2, by rw [hr],
    C1_origins_disjoint demoDecode 16 16 [("a" : String), ("b" : String)] r.1 r.2
      (by decide) (by decide) (by rw [hr])⟩

/-- C4: after `k` successful cache-missing loads on a fresh builder,
`completed_tiles_size` is the unique `s` with `s² ≤ k < (s+1)²`. -/
theorem C4_ring_count (decode : String → Option Img) (uw uh : Nat)
    (names : List String) (st' : AtlasBuilder) (origins : List (Nat × Nat))
    (hnodup : names.Nodup)
    (hload : loadList decode (AtlasBuilder.new uw uh) names = some (st', origins)) :
    st'.completed_tiles_size * st'.completed_tiles_size ≤ names.length ∧
    names.length < (st'.completed_tiles_size + 1) * (st'.completed_tiles_size + 1) := by
  obtain ⟨hinv, hplaced, _, _, _⟩ :=
    loadList_spec decode names (AtlasBuilder.new uw uh) st' origins hload hnodup
      (fun n _ => rfl) (Nat.zero_le 0)
  unfold AtlasBuilder.cursorInv at hinv
  have h0 : (AtlasBuilder.new uw uh).placed = 0 := rfl
  rw [h0] at hplaced
  unfold AtlasBuilder.placed at hplaced
  have hexp : (st'.completed_tiles_size + 1) * (st'.completed_tiles_size + 1) =
      st'.completed_tiles_size * st'.completed_tiles_size +
      2 * st'.completed_tiles_size + 1 := by ring
  omega

/-- C4 witness: two loads on a fresh builder leave `completed_tiles_size = 1`,
and indeed `1² ≤ 2 < 2²`. -/
theorem C4_witness :
    ∃ st' origins,
      loadList demoDecode (AtlasBuilder.new 16 16) [("a" : String), ("b" : String)] =
        some (st', origins) ∧
      st'.completed_tiles_size * st'.completed_tiles_size ≤ 2 ∧
      2 < (st'.completed_tiles_size + 1) * (st'.completed_tiles_size + 1) := by
  have hs : (loadList demoDecode (AtlasBuilder.new 16 16)
      [("a" : String), ("b" : String)]).isSome = true := rfl
  obtain ⟨r, hr⟩ := Option.isSome_iff_exists.mp hs
  have h := C4_ring_count demoDecode 16 16 [("a" : String), ("b" : String)] r.1 r.2
    (by decide) (by rw [hr])
  exact ⟨r.1, r.2, by rw [hr], h.1, h.2⟩

/-- C5: after any sequence of successful loads on a fresh builder with
positive unit dimensions, each raster dimension covers the completed square
and both dimensions are the initial `4·unit` size scaled by one common power
of two. -/
theorem C5_raster_bounds (decode : String → Option Img) (uw uh : Nat)
    (names : List String) (st' : AtlasBuilder) (origins : List (Nat × Nat))
    (huw : 0 < uw) (huh : 0 < uh)
    (hload : loadList decode (AtlasBuilder.new uw uh) names = some (st', origins)) :
    uw * st'.completed_tiles_size ≤ st'.image.width ∧
    uh * st'.completed_tiles_size ≤ st'.image.height ∧
    ∃ e : Nat, st'.image.width = (uw * 4) * 2 ^ e ∧
               st'.image.height = (uh * 4) * 2 ^ e := by
  obtain ⟨_, _, hpow, hle1, hle2, _⟩ :=
    loadList_dimsInv uw uh huw huh decode names (AtlasBuilder.new uw uh) st' origins hload
      (new_dimsInv uw uh)
  exact ⟨hle1, hle2, hpow⟩

/-- C5 witness: after loading `"a"` and `"b"` on a fresh 16×16 builder the
raster still covers the completed square and is the initial size times a
power of two. -/
theorem C5_witness :
    ∃ st' origins,
      loadList demoDecode (AtlasBuilder.new 16 16) [("a" : String), ("b" : String)] =
        some (st', origins) ∧
      16 * st'.completed_tiles_size ≤ st'.image.width ∧
      ∃ e : Nat, st'.image.width = 64 * 2 ^ e ∧ st'.image.height = 64 * 2 ^ e := by
  have hs : (loadList demoDecode (AtlasBuilder.new 16 16)
      [("a" : String), ("b" : String)]).isSome = true := rfl
  obtain ⟨r, hr⟩ := Option.isSome_iff_exists.mp hs
  obtain ⟨h1, _, e, he1, he2⟩ :=
    C5_raster_bounds demoDecode 16 16 [("a" : String), ("b" : String)] r.1 r.2
      (by decide) (by decide) (by rw [hr])
  exact ⟨r.1, r.2, by rw [hr], h1, e, he1, he2⟩

/-- C8 counterexample: the claim converts with `round`, but the Rust `as u8`
cast truncates.  At `x = 1/2, y = 0` (all intermediate `f32` values exact) the
code reads column `⌊127.5⌋ = 127` while the claimed formula reads column
`round 127.5 = 128`, and on a raster distinguishing those pixels the results
differ. -/
theorem C8_counterexample :
    ColorMap.get demoColorMap (1 / 2) 0 ≠ ColorMap.getSpecRound demoColorMap (1 / 2) 0 := by
  have h1 : ColorMap.get demoColorMap (1 / 2) 0 = (127, 255, 0) := by
    unfold ColorMap.get demoColorMap
    norm_num [max_def, min_def]
    decide
  have h2 : ColorMap.getSpecRound demoColorMap (1 / 2) 0 = (128, 255, 0) := by
    unfold ColorMap.getSpecRound demoColorMap specClamp01
    norm_num [max_def, min_def, round_eq]
    decide
  rw [h1, h2]
  decide

/-- C8 (amended): in the exact-arithmetic model, `ColorMap::get` clamps both
inputs to `[0, 1]`, rescales `y` by `y2 = x * y`, computes the pixel column
and row by truncating `(1 - x) * 255` and `(1 - y2) * 255` (the behaviour of
the `as u8` cast), and returns the RGB channels of that pixel, discarding
alpha — i.e. it coincides with the spec pipeline with `round` replaced by
truncation. -/
theorem C8_get_eq_spec_trunc (m : ColorMap) (x y : ℚ) :
    ColorMap.get m x y = ColorMap.getSpecTrunc m x y := rfl
